import Mathlib

/-!
# Verification of the Save Wizard quick-code interpreter (`quickcodes.py`)

This file gives a shallow embedding of `src/quickcodes.py` (the `QuickCodes`
class: decoder, pattern matcher and opcode interpreter) and proves properties
of it.  The byte buffer is a `List Nat` of values `< 256`, instruction lines
are `List Char`, and the Python `bytearray` slice semantics (index clamping,
resizing slice assignment) are modelled exactly.  The integer wrapper types
(`uint8` .. `uint64`, `int32`, `int64`) come from `utils.type_helpers`, which
is not part of the repository sources; they are modelled from the spec's
description of the fixed-width hex codec collaborator.
-/

namespace QuickCodesVerif

/-- The single error type of the program (`QuickCodesError` in the source),
carrying a human-readable message. -/
structure QuickCodesError where
  message : String
deriving DecidableEq, Repr

/-- The message used for decode- and execution-time failures
(`"Invalid code!"` in the source). -/
def invalidCode : QuickCodesError := ⟨"Invalid code!"⟩

/-! ## Fixed-width hex codec (external collaborator)

Modelled from the spec: `utils.type_helpers` is not under the repository's
sources; the spec describes it as a collaborator that decodes a substring of
hexadecimal characters to an unsigned or signed integer of 8/16/32/64 bits and
encodes such an integer to its byte representation in a selected byte order.
-/

/-- Modelled from the spec: is `c` a hexadecimal character (the characters
accepted by the hex codec and by the line-validation regex). -/
def isHexChar (c : Char) : Bool :=
  ('0' ≤ c && c ≤ '9') || ('a' ≤ c && c ≤ 'f') || ('A' ≤ c && c ≤ 'F')

/-- Modelled from the spec: numeric value of one hexadecimal character. -/
def hexVal (c : Char) : Nat :=
  if '0' ≤ c && c ≤ '9' then c.toNat - 48
  else if 'a' ≤ c && c ≤ 'f' then c.toNat - 87
  else if 'A' ≤ c && c ≤ 'F' then c.toNat - 55
  else 0

/-- Modelled from the spec: decode a substring of hexadecimal characters to an
unsigned integer.  A malformed (empty or non-hexadecimal) substring is a
`ValueError` in Python, which `apply_code` converts to `QuickCodesError`;
we surface it as the same error directly. -/
def parseHex (s : List Char) : Except QuickCodesError Nat :=
  if s ≠ [] ∧ s.all isHexChar then
    .ok (s.foldl (fun a c => 16 * a + hexVal c) 0)
  else .error invalidCode

/-- Modelled from the spec: little-endian byte encoding of a `width`-byte
unsigned integer. -/
def toBytesLE (width : Nat) (v : Nat) : List Nat :=
  (List.range width).map (fun i => v / 256 ^ i % 256)

/-- Modelled from the spec: big-endian byte encoding of a `width`-byte
unsigned integer. -/
def toBytesBE (width : Nat) (v : Nat) : List Nat :=
  (toBytesLE width v).reverse

/-- Modelled from the spec: decode a little-endian byte sequence to an
unsigned integer (`int.from_bytes(bs, "little")`). -/
def fromBytesLE (bs : List Nat) : Nat :=
  bs.foldr (fun b a => a * 256 + b) 0

/-- Modelled from the spec: decode a big-endian byte sequence to an
unsigned integer (`int.from_bytes(bs, "big")`). -/
def fromBytesBE (bs : List Nat) : Nat :=
  bs.foldl (fun a b => a * 256 + b) 0

/-- Modelled from the spec: wrap to an unsigned 16-bit value
(`uint16.value` assignment). -/
def u16 (n : Int) : Nat := (n % (65536 : Int)).toNat

/-- Modelled from the spec: wrap to an unsigned 32-bit value
(`uint32.value` assignment). -/
def u32 (n : Int) : Nat := (n % (4294967296 : Int)).toNat

/-- Modelled from the spec: wrap to an unsigned 64-bit value
(`uint64.value` assignment). -/
def u64 (n : Int) : Nat := (n % (18446744073709551616 : Int)).toNat

/-- Modelled from the spec: wrap to a signed 32-bit value
(`int32.value` assignment). -/
def s32 (n : Int) : Int := (n + 2147483648) % 4294967296 - 2147483648

/-- Modelled from the spec: wrap to a signed 64-bit value
(`int64.value` assignment). -/
def s64 (n : Int) : Int :=
  (n + 9223372036854775808) % 18446744073709551616 - 9223372036854775808

/-! ## Python `bytearray` primitives

These model the exact semantics of the Python operations used by the source:
single-index access (negative wrap, `IndexError` out of range, `ValueError`
for a byte value outside `[0, 256)`) and step-1 slice access/assignment
(indices clamped into `[0, len]`, assignment may grow or shrink the array).
-/

/-- Normalize one bound of a Python step-1 slice of a length-`n` sequence:
a negative index counts from the end, then the result is clamped to `[0, n]`. -/
def sliceIdx (n : Nat) (i : Int) : Nat :=
  if i < 0 then (max (i + n) 0).toNat else min i.toNat n

/-- Python `data[a:b]` for a byte buffer (always succeeds, may be short). -/
def getSlice (data : List Nat) (a b : Int) : List Nat :=
  (data.take (sliceIdx data.length b)).drop (sliceIdx data.length a)

/-- Python `data[a:b] = repl` for a `bytearray`: replaces the addressed
window, clamping the bounds; the buffer is resized when `repl`'s length
differs from the window's. -/
def setSlice (data : List Nat) (a b : Int) (repl : List Nat) : List Nat :=
  data.take (sliceIdx data.length a) ++ repl ++
    data.drop (max (sliceIdx data.length a) (sliceIdx data.length b))

/-- Python `data[i]` for a `bytearray`: negative indices wrap once; an
out-of-range index raises `IndexError` (caught by `apply_code` and re-raised
as `QuickCodesError`). -/
def getAt (data : List Nat) (i : Int) : Except QuickCodesError Nat :=
  if 0 ≤ i + data.length ∧ i < data.length then
    .ok (data.getD (if i < 0 then (i + data.length).toNat else i.toNat) 0)
  else .error invalidCode

/-- Python `data[i] = v` for a `bytearray`: `ValueError` when `v` is not a
byte, `IndexError` when `i` is out of range (both become `QuickCodesError`). -/
def setAt (data : List Nat) (i : Int) (v : Int) : Except QuickCodesError (List Nat) :=
  if v < 0 ∨ 256 ≤ v then .error invalidCode
  else if 0 ≤ i + data.length ∧ i < data.length then
    .ok (data.set (if i < 0 then (i + data.length).toNat else i.toNat) v.toNat)
  else .error invalidCode

/-- Python `range(start, stop)` as a list of integers. -/
def intRange (start stop : Int) : List Int :=
  (List.range (stop - start).toNat).map (fun k => start + (k : Int))

/-- Python `range(start, -1, -1)` as a list of integers
(`start, start - 1, ..., 0`; empty when `start < 0`). -/
def descRange (start : Int) : List Int :=
  if start < 0 then [] else (List.range (start.toNat + 1)).map (fun k => start - (k : Int))

/-- Python `range(start, stop, step)` over naturals (positive `step`). -/
def natRangeStep (start stop step : Nat) : List Nat :=
  (List.range ((stop - start + step - 1) / step)).map (fun k => start + step * k)

/-! ## Pattern matcher (`search_data` / `reverse_search_data`) -/

/-- The common loop shape of both search functions: walk the candidate
offsets in order, count offsets satisfying `p` starting from `k`, return the
offset at which the counter reaches `count`, or `-1`. -/
def scanLoop (p : Int → Bool) (count : Int) : List Int → Int → Int
  | [], _ => -1
  | i :: rest, k =>
    if p i then
      if k = count then i else scanLoop p count rest (k + 1)
    else scanLoop p count rest k

/-- `QuickCodes.search_data`: forward scan of the window starts
`start, start+1, ..., size - length`, comparing the `length`-byte window at
each offset against `search[:length]`; returns the `count`-th match or `-1`. -/
def search_data (data : List Nat) (size start : Int) (search : List Nat)
    (length count : Int) : Int :=
  scanLoop
    (fun i => decide (getSlice data i (i + length) = getSlice search 0 length))
    count (intRange start (size - length + 1)) 1

/-- `QuickCodes.reverse_search_data`: backward scan of the offsets
`start, start-1, ..., 0`, only considering offsets with `i + length ≤ size`;
returns the `count`-th match in that order or `-1`. -/
def reverse_search_data (data : List Nat) (size start : Int) (search : List Nat)
    (length count : Int) : Int :=
  scanLoop
    (fun i => decide (i + length ≤ size) &&
      decide (getSlice data i (i + length) = getSlice search 0 length))
    count (descRange start) 1

/-! ## Instruction decoder (`QuickCodes.__init__` / `validate_code`) -/

/-- An instruction line, as the raw character sequence of its text. -/
abbrev Line := List Char

/-- Python `line[a:b]` on a string (non-negative bounds, as used by the
source). -/
def sub (l : Line) (a b : Nat) : List Char :=
  (l.take b).drop a

/-- Python `line[i]` on a string: `IndexError` (re-raised as
`QuickCodesError`) when the index is out of range. -/
def charAt (l : Line) (i : Nat) : Except QuickCodesError Char :=
  match l.get? i with
  | some c => .ok c
  | none => .error invalidCode

/-- Worker for `splitWs`: `cur` holds the (reversed) characters of the token
being scanned. -/
def splitWsGo : List Char → List Char → List (List Char)
  | [], cur => if cur.isEmpty then [] else [cur.reverse]
  | c :: rest, cur =>
    if c.isWhitespace then
      if cur.isEmpty then splitWsGo rest [] else cur.reverse :: splitWsGo rest []
    else splitWsGo rest (c :: cur)

/-- Python `codes.split()`: split on whitespace runs, discarding empty
tokens. -/
def splitWs (s : List Char) : List (List Char) := splitWsGo s []

/-- The line-forming comprehension of `QuickCodes.__init__`: pair consecutive
tokens into `"TOKEN TOKEN"` lines; an odd token count hits `IndexError`,
re-raised as `QuickCodesError("Invalid code!")`. -/
def pairUp : List (List Char) → Except QuickCodesError (List Line)
  | [] => .ok []
  | [_] => .error invalidCode
  | a :: b :: rest =>
    match pairUp rest with
    | .ok ls => .ok ((a ++ ' ' :: b) :: ls)
    | .error e => .error e

/-- `QuickCodes.validate_code`: full match of the line against
`^[0-9a-fA-F]{8} [0-9a-fA-F]{8}$`. -/
def validate_code (l : Line) : Bool :=
  l.length = 17 && (sub l 0 8).all isHexChar && l.get? 8 == some ' ' &&
    (sub l 9 17).all isHexChar

/-- The validation loop of `QuickCodes.__init__`: the first invalid line
raises `QuickCodesError` naming that line. -/
def checkLines : List Line → Except QuickCodesError Unit
  | [] => .ok ()
  | l :: rest =>
    if validate_code l then checkLines rest
    else .error ⟨"Invalid code: " ++ String.mk l ++ "!"⟩

/-- `QuickCodes.__init__` (decoding part): split the code text into tokens,
pair them into instruction lines, and validate each line's lexical shape.
The byte buffer is not involved at all. -/
def quick_codes_init (codes : List Char) : Except QuickCodesError (List Line) :=
  match pairUp (splitWs codes) with
  | .error e => .error e
  | .ok ls =>
    match checkLines ls with
    | .error e => .error e
    | .ok _ => .ok ls

/-! ## Interpreter state and auxiliary loops (`QuickCodes.apply_code`) -/

/-- The interpreter registers and the byte buffer.  `pointer` is the signed
64-bit relocation register, `end_pointer` the unsigned 64-bit search bound,
`ptr` the unsigned 32-bit scratch register of the mega opcode, and `data`
the in-memory save image. -/
structure St where
  pointer : Int
  end_pointer : Nat
  ptr : Nat
  data : List Nat
deriving DecidableEq, Repr

/-- Python `self.lines[i]`: `IndexError` is re-raised as
`QuickCodesError("Invalid code!")`. -/
def getLine (lines : List Line) (i : Nat) : Except QuickCodesError Line :=
  match lines.get? i with
  | some l => .ok l
  | none => .error invalidCode

/-- Python `(n + 3) & ~3`: round up to a multiple of 4. -/
def roundUp4 (n : Nat) : Nat := (n + 3) / 4 * 4

/-- The lookahead condition of the failed-search skip:
`line and ((line[0] not in ["8", "B", "C"]) or line[1] == "8")`, with
Python's short-circuit evaluation; accessing `line[1]` on a one-character
line raises (re-raised as `QuickCodesError`). -/
def depSkipCond (l : Line) : Except QuickCodesError Bool :=
  match l with
  | [] => .ok false
  | c :: rest =>
    if c = '8' ∨ c = 'B' ∨ c = 'C' then
      match rest with
      | [] => .error invalidCode
      | c1 :: _ => .ok (c1 = '8')
    else .ok true

/-- The inner `while` of the failed-search skip: while the lookahead
condition holds, fetch the next line (stopping when the program counter has
passed the end).  Returns the final lookahead line and the number of counter
increments performed. -/
def skipInner (lines : List Line) (line : Line) (li : Nat) :
    Except QuickCodesError (Line × Nat) :=
  match depSkipCond line with
  | .error e => .error e
  | .ok false => .ok (line, 0)
  | .ok true =>
    if h : li < lines.length then
      match skipInner lines (lines.get ⟨li, h⟩) (li + 1) with
      | .error e => .error e
      | .ok (l, d) => .ok (l, d + 1)
    else .ok (line, 0)
termination_by lines.length - li
decreasing_by omega

/-- The outer `while` of the failed-search skip: while the program counter is
inside the program, advance it and run the inner loop.  Returns the total
number of counter increments. -/
def skipOuter (lines : List Line) (line : Line) (li : Nat) :
    Except QuickCodesError Nat :=
  if h : li < lines.length then
    match skipInner lines line (li + 1) with
    | .error e => .error e
    | .ok (line1, d1) =>
      match skipOuter lines line1 (li + 1 + d1) with
      | .error e => .error e
      | .ok d2 => .ok (1 + d1 + d2)
  else .ok 0
termination_by lines.length - li
decreasing_by omega

/-- The `if pointer.value < 0:` block repeated verbatim after each of the
three search opcodes (`8`, `B`, `C`): on a failed search (`res < 0`), run
the dependent-skip loops starting from the current lookahead line `cur` and
clear `pointer`; otherwise store the found offset in `pointer`.  `d1` is the
number of counter increments already performed by the handler. -/
def searchSkip (lines : List Line) (li : Nat) (st : St) (res : Int) (cur : Line)
    (d1 : Nat) : Except QuickCodesError (St × Nat) :=
  if res < 0 then
    match skipOuter lines cur (li + d1) with
    | .error e => .error e
    | .ok d2 => .ok ({ st with pointer := 0 }, d1 + d2)
  else .ok ({ st with pointer := res }, d1)

/-- The skip loop of opcode `D`: advance the program counter `l` times,
fetching each skipped line (running off the end of the program raises
`IndexError`, re-raised as `QuickCodesError`).  Returns the number of
increments (always `l` on success). -/
def dSkip (lines : List Line) : Nat → Nat → Except QuickCodesError Nat
  | 0, _ => .ok 0
  | l + 1, li =>
    match lines.get? (li + 1) with
    | none => .error invalidCode
    | some _ =>
      match dSkip lines l (li + 1) with
      | .error e => .error e
      | .ok d => .ok (d + 1)

/-- The continuation-line loop shared by opcodes `8`, `A` and `B`: for each
index `i` of `idxs` (Python `range(4, length, 8)` resp. `range(0, size, 8)`),
fetch the next line, splice the big-endian bytes of its two hex words into
`find` at `i` and (when `i + 4 < length`) at `i + 4`, and keep the second
word as the running value.  Returns the assembled buffer, the final value,
the number of lines consumed, and the last line fetched. -/
def patLoop (lines : List Line) (length : Nat) :
    List Nat → List Nat → Nat → Nat → Line →
    Except QuickCodesError (List Nat × Nat × Nat × Line)
  | [], find, val, _, cur => .ok (find, val, 0, cur)
  | i :: rest, find, _, li, _ =>
    match getLine lines (li + 1) with
    | .error e => .error e
    | .ok line =>
      match parseHex (sub line 0 8) with
      | .error e => .error e
      | .ok v1 =>
        match parseHex (sub line 9 17) with
        | .error e => .error e
        | .ok v2 =>
          let find1 := setSlice find i (i + 4) (toBytesBE 4 v1)
          let find2 :=
            if i + 4 < length then setSlice find1 (i + 4) (i + 8) (toBytesBE 4 v2)
            else find1
          match patLoop lines length rest find2 v2 (li + 1) line with
          | .error e => .error e
          | .ok (f, v, d, cur) => .ok (f, v, d + 1, cur)

/-- The fill loop of opcode `4`: for each `i`, write the current value (at
the width selected by `t`) at `off + incoff * i`, then add `incval` to the
value with 32-bit wraparound. -/
def fillLoop (t : Char) (off incoff : Int) (incval : Nat) :
    List Nat → List Nat → Nat → Except QuickCodesError (List Nat × Nat)
  | [], data, val => .ok (data, val)
  | i :: rest, data, val =>
    let write : Int := off + incoff * (i : Int)
    let data1 :=
      if t = '0' ∨ t = '8' ∨ t = '4' ∨ t = 'C' then
        setAt data write ((val % 256 : Nat) : Int)
      else if t = '1' ∨ t = '9' ∨ t = '5' ∨ t = 'D' then
        .ok (setSlice data write (write + 2) (toBytesLE 2 (val % 65536)))
      else if t = '2' ∨ t = 'A' ∨ t = '6' ∨ t = 'E' then
        .ok (setSlice data write (write + 4) (toBytesLE 4 val))
      else .ok data
    match data1 with
    | .error e => .error e
    | .ok d => fillLoop t off incoff incval rest d (u32 (val + incval))

/-! ## Opcode handlers

Each `handlerX` mirrors one `case` of the `match line[0]` dispatch in
`QuickCodes.apply_code`.  Handlers that consume continuation lines or skip
forward return, besides the new state, the number of extra program-counter
increments they performed; the fetch-execute loop then adds the final
`line_index += 1`. -/

/-- Opcodes `0`/`1`/`2` (fixed 1/2/4-byte write): slice
`val.as_bytes[(4 - bytes_):(4 - bytes_) + bytes_]` of the little-endian
32-bit value is spliced in at the resolved offset. -/
def handlerWrite (c : Char) (st : St) (line : Line) : Except QuickCodesError St :=
  let bytes_ : Nat := 2 ^ (c.toNat - 48)
  match parseHex (sub line 2 8) with
  | .error e => .error e
  | .ok offRaw =>
    match charAt line 1 with
    | .error e => .error e
    | .ok t =>
      let off : Int := if t = '8' then s32 (offRaw + st.pointer) else (offRaw : Int)
      match parseHex (sub line 9 17) with
      | .error e => .error e
      | .ok v =>
        let repl := ((toBytesLE 4 v).drop (4 - bytes_)).take bytes_
        .ok { st with data := setSlice st.data off (off + bytes_) repl }

/-- Opcode `3` (increase/decrease write): read the 1/2/4/8-byte little-endian
value at the address, add or subtract the masked delta, write back.  The
1-byte subtypes use a plain integer and single-index `bytearray` assignment
(no wraparound); the wider subtypes use the wrapping unsigned types. -/
def handler3 (st : St) (line : Line) : Except QuickCodesError St :=
  match charAt line 1 with
  | .error e => .error e
  | .ok t =>
    match parseHex (sub line 2 8) with
    | .error e => .error e
    | .ok offRaw =>
      let write : Int :=
        if t = '8' ∨ t = '9' ∨ t = 'A' ∨ t = 'C' ∨ t = 'D' ∨ t = 'E' then
          s32 (offRaw + st.pointer)
        else (offRaw : Int)
      match parseHex (sub line 9 17) with
      | .error e => .error e
      | .ok v =>
        match t with
        | '0' | '8' =>
          match getAt st.data write with
          | .error e => .error e
          | .ok wv8 =>
            match setAt st.data write ((wv8 + v % 256 : Nat) : Int) with
            | .error e => .error e
            | .ok d => .ok { st with data := d }
        | '1' | '9' =>
          let wv := u16 ((fromBytesLE (getSlice st.data write (write + 2)) : Int) +
            ((v % 65536 : Nat) : Int))
          .ok { st with data := setSlice st.data write (write + 2) (toBytesLE 2 wv) }
        | '2' | 'A' =>
          let wv := u32 ((fromBytesLE (getSlice st.data write (write + 4)) : Int) + (v : Int))
          .ok { st with data := setSlice st.data write (write + 4) (toBytesLE 4 wv) }
        | '3' | 'B' =>
          let wv := u64 ((fromBytesLE (getSlice st.data write (write + 8)) : Int) + (v : Int))
          .ok { st with data := setSlice st.data write (write + 8) (toBytesLE 8 wv) }
        | '4' | 'C' =>
          match getAt st.data write with
          | .error e => .error e
          | .ok wv8 =>
            match setAt st.data write ((wv8 : Int) - ((v % 256 : Nat) : Int)) with
            | .error e => .error e
            | .ok d => .ok { st with data := d }
        | '5' | 'D' =>
          let wv := u16 ((fromBytesLE (getSlice st.data write (write + 2)) : Int) -
            ((v % 65536 : Nat) : Int))
          .ok { st with data := setSlice st.data write (write + 2) (toBytesLE 2 wv) }
        | '6' | 'E' =>
          let wv := u32 ((fromBytesLE (getSlice st.data write (write + 4)) : Int) - (v : Int))
          .ok { st with data := setSlice st.data write (write + 4) (toBytesLE 4 wv) }
        | '7' | 'F' =>
          let wv := u64 ((fromBytesLE (getSlice st.data write (write + 8)) : Int) - (v : Int))
          .ok { st with data := setSlice st.data write (write + 8) (toBytesLE 8 wv) }
        | _ => .ok st

/-- Opcode `4` (repeated fill): consumes one continuation line carrying the
repeat count, address increment and value increment, then runs the fill
loop. -/
def handler4 (lines : List Line) (li : Nat) (st : St) (line : Line) :
    Except QuickCodesError St :=
  match charAt line 1 with
  | .error e => .error e
  | .ok t =>
    match parseHex (sub line 2 8) with
    | .error e => .error e
    | .ok offRaw =>
      let off : Int :=
        if t = '8' ∨ t = '9' ∨ t = 'A' ∨ t = 'C' ∨ t = 'D' ∨ t = 'E' then
          s32 (offRaw + st.pointer)
        else (offRaw : Int)
      match parseHex (sub line 9 17) with
      | .error e => .error e
      | .ok v =>
        match getLine lines (li + 1) with
        | .error e => .error e
        | .ok line2 =>
          match (if t = '4' ∨ t = '5' ∨ t = '6' ∨ t = 'C' ∨ t = 'D' ∨ t = 'E' then
              parseHex (sub line2 0 4) else parseHex (sub line2 1 4)) with
          | .error e => .error e
          | .ok n =>
            match parseHex (sub line2 4 8) with
            | .error e => .error e
            | .ok incoff =>
              match parseHex (sub line2 9 17) with
              | .error e => .error e
              | .ok incval =>
                match fillLoop t off (incoff : Int) incval (List.range n) st.data v with
                | .error e => .error e
                | .ok (d, _) => .ok { st with data := d }

/-- Opcode `5` (block copy): consumes the destination continuation line and
copies `val` bytes (Python slice-to-slice assignment, clamping and possibly
resizing). -/
def handler5 (lines : List Line) (li : Nat) (st : St) (line : Line) :
    Except QuickCodesError St :=
  match parseHex (sub line 2 8) with
  | .error e => .error e
  | .ok offsrc =>
    match parseHex (sub line 9 17) with
    | .error e => .error e
    | .ok v =>
      match charAt line 1 with
      | .error e => .error e
      | .ok t1 =>
        let src : Int := if t1 = '8' then (offsrc : Int) + st.pointer else (offsrc : Int)
        match getLine lines (li + 1) with
        | .error e => .error e
        | .ok line2 =>
          match parseHex (sub line2 2 8) with
          | .error e => .error e
          | .ok offdst =>
            match charAt line2 1 with
            | .error e => .error e
            | .ok t2 =>
              let dst : Int := if t2 = '8' then (offdst : Int) + st.pointer else (offdst : Int)
              let d := setSlice st.data dst (dst + v) (getSlice st.data src (src + v))
              .ok { st with data := d }

/-- Opcode `6` (mega/pointer code): reads, register arithmetic, and writes
driven by the operator digit `w`. -/
def handler6 (st : St) (line : Line) : Except QuickCodesError St :=
  match charAt line 1 with
  | .error e => .error e
  | .ok t =>
    match charAt line 2 with
    | .error e => .error e
    | .ok w =>
      match charAt line 3 with
      | .error e => .error e
      | .ok x =>
        match charAt line 5 with
        | .error e => .error e
        | .ok y =>
          match charAt line 7 with
          | .error e => .error e
          | .ok z =>
            match parseHex (sub line 9 17) with
            | .error e => .error e
            | .ok v0 =>
              let off : Int := if t = '8' ∨ t = '9' ∨ t = 'A' then st.pointer else 0
              match w with
              | '0' =>
                let v := if x = '1' then u32 ((v0 : Int) + (st.ptr : Int)) else v0
                let write : Int := (v : Int) + off
                let pointer1 : Int := if y = '1' then (v : Int) else st.pointer
                if t = '0' ∨ t = '8' then
                  match getAt st.data write with
                  | .error e => .error e
                  | .ok wv8 => .ok { st with pointer := pointer1, ptr := wv8 }
                else if t = '1' ∨ t = '9' then
                  let p := fromBytesLE (getSlice st.data write (write + 2))
                  .ok { st with pointer := pointer1, ptr := p }
                else if t = '2' ∨ t = 'A' then
                  let p := fromBytesLE (getSlice st.data write (write + 4))
                  .ok { st with pointer := pointer1, ptr := p }
                else .ok { st with pointer := pointer1 }
              | '1' =>
                let p1 :=
                  if x = '0' then u32 ((st.ptr : Int) + (v0 : Int))
                  else if x = '1' then u32 ((st.ptr : Int) - (v0 : Int))
                  else if x = '2' then u32 ((st.ptr : Int) * (v0 : Int))
                  else st.ptr
                let p2 := if z = '1' then u32 ((p1 : Int) + st.pointer) else p1
                .ok { st with ptr := p2, pointer := (p2 : Int) }
              | '2' =>
                let q :=
                  if x = '0' then s64 (st.pointer + (v0 : Int))
                  else if x = '1' then s64 (st.pointer - (v0 : Int))
                  else if x = '2' then s64 (st.pointer * (v0 : Int))
                  else st.pointer
                let ptr2 := if y = '1' then u32 q else st.ptr
                .ok { st with pointer := q, ptr := ptr2 }
              | '4' =>
                let write : Int := st.pointer
                if t = '0' ∨ t = '8' then
                  match setAt st.data write ((v0 % 256 : Nat) : Int) with
                  | .error e => .error e
                  | .ok d => .ok { st with data := d }
                else if t = '1' ∨ t = '9' then
                  let d := setSlice st.data write (write + 2) (toBytesLE 2 (v0 % 65536))
                  .ok { st with data := d }
                else if t = '2' ∨ t = 'A' then
                  let d := setSlice st.data write (write + 4) (toBytesLE 4 v0)
                  .ok { st with data := d }
                else .ok st
              | _ => .ok st

/-- Opcode `7` (clamped write): write the masked literal only when it beats
the current value in the direction selected by the subtype. -/
def handler7 (st : St) (line : Line) : Except QuickCodesError St :=
  match charAt line 1 with
  | .error e => .error e
  | .ok t =>
    match parseHex (sub line 2 8) with
    | .error e => .error e
    | .ok offRaw =>
      let write : Int :=
        if t = '8' ∨ t = '9' ∨ t = 'A' ∨ t = 'C' ∨ t = 'D' ∨ t = 'E' then
          s32 (offRaw + st.pointer)
        else (offRaw : Int)
      match parseHex (sub line 9 17) with
      | .error e => .error e
      | .ok v =>
        match t with
        | '0' | '8' =>
          match getAt st.data write with
          | .error e => .error e
          | .ok wv8 =>
            let wv := if v % 256 > wv8 then v % 256 else wv8
            match setAt st.data write (wv : Int) with
            | .error e => .error e
            | .ok d => .ok { st with data := d }
        | '1' | '9' =>
          let cur := fromBytesLE (getSlice st.data write (write + 2))
          let wv := if v % 65536 > cur then v % 65536 else cur
          .ok { st with data := setSlice st.data write (write + 2) (toBytesLE 2 wv) }
        | '2' | 'A' =>
          let cur := fromBytesLE (getSlice st.data write (write + 4))
          let wv := if v > cur then v else cur
          .ok { st with data := setSlice st.data write (write + 4) (toBytesLE 4 wv) }
        | '4' | 'C' =>
          match getAt st.data write with
          | .error e => .error e
          | .ok wv8 =>
            let wv := if v % 256 < wv8 then v % 256 else wv8
            match setAt st.data write (wv : Int) with
            | .error e => .error e
            | .ok d => .ok { st with data := d }
        | '5' | 'D' =>
          let cur := fromBytesLE (getSlice st.data write (write + 2))
          let wv := if v % 65536 < cur then v % 65536 else cur
          .ok { st with data := setSlice st.data write (write + 2) (toBytesLE 2 wv) }
        | '6' | 'E' =>
          let cur := fromBytesLE (getSlice st.data write (write + 4))
          let wv := if v < cur then v else cur
          .ok { st with data := setSlice st.data write (write + 4) (toBytesLE 4 wv) }
        | _ => .ok st

/-- Body of opcode `8` after field decoding: assemble the big-endian pattern
(with continuation lines), search forward from `pointer` (pointer-relative)
or 0, and run the shared found/not-found tail.  A zero occurrence count is
replaced by 1 (`if not cnt: cnt = 1`). -/
def doSearch8 (lines : List Line) (li : Nat) (st : St) (t : Char)
    (cnt0 length v : Nat) (line : Line) : Except QuickCodesError (St × Nat) :=
  let cnt := if cnt0 = 0 then 1 else cnt0
  let find1 := setSlice (List.replicate (roundUp4 length) 0) 0 4 (toBytesBE 4 v)
  match patLoop lines length (natRangeStep 4 length 8) find1 v li line with
  | .error e => .error e
  | .ok (find, _, d1, cur) =>
    let res := search_data st.data (st.data.length : Int)
      (if t = '8' then st.pointer else 0) find (length : Int) (cnt : Int)
    searchSkip lines li st res cur d1

/-- Opcode `8` (forward byte search): decode the fields and run
`doSearch8`. -/
def handler8 (lines : List Line) (li : Nat) (st : St) (line : Line) :
    Except QuickCodesError (St × Nat) :=
  match charAt line 1 with
  | .error e => .error e
  | .ok t =>
    match parseHex (sub line 2 4) with
    | .error e => .error e
    | .ok cnt0 =>
      match parseHex (sub line 4 8) with
      | .error e => .error e
      | .ok length =>
        match parseHex (sub line 9 17) with
        | .error e => .error e
        | .ok v => doSearch8 lines li st t cnt0 length v line

/-- Opcode `9` (pointer manipulator). -/
def handler9 (st : St) (line : Line) : Except QuickCodesError St :=
  match parseHex (sub line 9 17) with
  | .error e => .error e
  | .ok off =>
    match charAt line 1 with
    | .error e => .error e
    | .ok c =>
      match c with
      | '0' =>
        let p : Int := (fromBytesBE (getSlice st.data (off : Int) ((off : Int) + 4)) : Int)
        .ok { st with pointer := p }
      | '1' =>
        let p : Int := (fromBytesLE (getSlice st.data (off : Int) ((off : Int) + 4)) : Int)
        .ok { st with pointer := p }
      | '2' => .ok { st with pointer := s64 (st.pointer + (off : Int)) }
      | '3' => .ok { st with pointer := s64 (st.pointer - (off : Int)) }
      | '4' => .ok { st with pointer := s64 ((st.data.length : Int) - (off : Int)) }
      | '5' => .ok { st with pointer := (off : Int) }
      | 'D' => .ok { st with end_pointer := off }
      | 'E' => .ok { st with end_pointer := u64 (st.pointer + (off : Int)) }
      | _ => .ok st

/-- Opcode `A` (raw multi-word write): assemble the big-endian payload from
continuation lines and splice its first `size` bytes in at the resolved
offset. -/
def handlerA (lines : List Line) (li : Nat) (st : St) (line : Line) :
    Except QuickCodesError (St × Nat) :=
  match charAt line 1 with
  | .error e => .error e
  | .ok t =>
    match parseHex (sub line 2 8) with
    | .error e => .error e
    | .ok offRaw =>
      let off : Int := if t = '8' then s32 (offRaw + st.pointer) else (offRaw : Int)
      match parseHex (sub line 9 17) with
      | .error e => .error e
      | .ok size =>
        match patLoop lines size (natRangeStep 0 size 8)
            (List.replicate (roundUp4 size) 0) 0 li line with
        | .error e => .error e
        | .ok (w, _, d1, _) =>
          let d := setSlice st.data off (off + (size : Int)) (getSlice w 0 (size : Int))
          .ok ({ st with data := d }, d1)

/-- Body of opcode `B` after field decoding: like `doSearch8` but searching
backward from `pointer` or from `end_pointer` (defaulted to
`len(data) - 1` when unset). -/
def doSearchB (lines : List Line) (li : Nat) (st : St) (t : Char)
    (cnt0 length v : Nat) (line : Line) : Except QuickCodesError (St × Nat) :=
  let cnt := if cnt0 = 0 then 1 else cnt0
  let endp := if st.end_pointer = 0 then u64 ((st.data.length : Int) - 1)
    else st.end_pointer
  let find1 := setSlice (List.replicate (roundUp4 length) 0) 0 4 (toBytesBE 4 v)
  match patLoop lines length (natRangeStep 4 length 8) find1 v li line with
  | .error e => .error e
  | .ok (find, _, d1, cur) =>
    let res := reverse_search_data st.data (st.data.length : Int)
      (if t = '8' then st.pointer else (endp : Int)) find (length : Int) (cnt : Int)
    searchSkip lines li { st with end_pointer := endp } res cur d1

/-- Opcode `B` (backward byte search): decode the fields and run
`doSearchB`. -/
def handlerB (lines : List Line) (li : Nat) (st : St) (line : Line) :
    Except QuickCodesError (St × Nat) :=
  match charAt line 1 with
  | .error e => .error e
  | .ok t =>
    match parseHex (sub line 2 4) with
    | .error e => .error e
    | .ok cnt0 =>
      match parseHex (sub line 4 8) with
      | .error e => .error e
      | .ok length =>
        match parseHex (sub line 9 17) with
        | .error e => .error e
        | .ok v => doSearchB lines li st t cnt0 length v line

/-- Body of opcode `C` after field decoding: the pattern is the buffer
content at the resolved address; the subtype selects forward-from-address or
0-to-address search. -/
def doSearchC (lines : List Line) (li : Nat) (st : St) (t : Char)
    (cnt0 length a : Nat) (line : Line) : Except QuickCodesError (St × Nat) :=
  let addr : Nat := if t = '8' ∨ t = 'C' then u32 ((a : Int) + st.pointer) else a
  let find := getSlice st.data (addr : Int) (st.data.length : Int)
  let cnt := if cnt0 = 0 then 1 else cnt0
  let res :=
    if t = '4' ∨ t = 'C' then
      search_data st.data ((addr : Int) + (length : Int)) 0 find
        (length : Int) (cnt : Int)
    else
      search_data st.data (st.data.length : Int) ((addr : Int) + (length : Int))
        find (length : Int) (cnt : Int)
  searchSkip lines li st res line 0

/-- Opcode `C` (address-based search): decode the fields and run
`doSearchC`. -/
def handlerC (lines : List Line) (li : Nat) (st : St) (line : Line) :
    Except QuickCodesError (St × Nat) :=
  match charAt line 1 with
  | .error e => .error e
  | .ok t =>
    match parseHex (sub line 2 4) with
    | .error e => .error e
    | .ok cnt0 =>
      match parseHex (sub line 4 8) with
      | .error e => .error e
      | .ok length =>
        match parseHex (sub line 9 17) with
        | .error e => .error e
        | .ok a => doSearchC lines li st t cnt0 length a line

/-- The comparison dispatch of opcode `D` (`match op`): an operator digit
outside `0`–`3` sets the flag to `1`, i.e. the test passes. -/
def compareOp (op : Char) (src v : Nat) : Bool :=
  match op with
  | '0' => src == v
  | '1' => !(src == v)
  | '2' => decide (src > v)
  | '3' => decide (src < v)
  | _ => true

/-- Opcode `D` (conditional skip): compare the 1/2-byte value at the resolved
address with the masked literal; on failure advance the program counter over
the declared number of lines (fetching each, so running off the program end
raises). -/
def handlerD (lines : List Line) (li : Nat) (st : St) (line : Line) :
    Except QuickCodesError (St × Nat) :=
  match charAt line 1 with
  | .error e => .error e
  | .ok t =>
    match charAt line 12 with
    | .error e => .error e
    | .ok op =>
      match charAt line 11 with
      | .error e => .error e
      | .ok bit =>
        match parseHex (sub line 2 8) with
        | .error e => .error e
        | .ok offRaw =>
          let off : Int := if t = '8' then s32 (offRaw + st.pointer) else (offRaw : Int)
          match parseHex (sub line 9 11) with
          | .error e => .error e
          | .ok l =>
            match parseHex (sub line 13 17) with
            | .error e => .error e
            | .ok v =>
              match (if bit = '1' then getAt st.data off
                  else .ok (fromBytesLE (getSlice st.data off (off + 2)))) with
              | .error e => .error e
              | .ok src =>
                let vv := if bit = '1' then v % 256 else v
                if compareOp op src vv then .ok (st, 0)
                else
                  match dSkip lines l li with
                  | .error e => .error e
                  | .ok d => .ok (st, d)

/-- One iteration of the fetch-execute loop: dispatch on the line's first
character (`match line[0]`); characters with no case (including lowercase
hex letters) fall through and do nothing. -/
def stepLine (lines : List Line) (st : St) (li : Nat) (line : Line) :
    Except QuickCodesError (St × Nat) :=
  match line.head? with
  | none => .error invalidCode
  | some c =>
    match c with
    | '0' | '1' | '2' => (handlerWrite c st line).map (fun s => (s, 0))
    | '3' => (handler3 st line).map (fun s => (s, 0))
    | '4' => (handler4 lines li st line).map (fun s => (s, 1))
    | '5' => (handler5 lines li st line).map (fun s => (s, 1))
    | '6' => (handler6 st line).map (fun s => (s, 0))
    | '7' => (handler7 st line).map (fun s => (s, 0))
    | '8' => handler8 lines li st line
    | '9' => (handler9 st line).map (fun s => (s, 0))
    | 'A' => handlerA lines li st line
    | 'B' => handlerB lines li st line
    | 'C' => handlerC lines li st line
    | 'D' => handlerD lines li st line
    | _ => .ok (st, 0)

/-- The fetch-execute loop of `apply_code`: run lines until the program
counter passes the end; each iteration adds the handler's extra increments
plus the final `line_index += 1`. -/
def runFrom (lines : List Line) (st : St) (li : Nat) : Except QuickCodesError St :=
  if h : li < lines.length then
    match stepLine lines st li (lines.get ⟨li, h⟩) with
    | .error e => .error e
    | .ok (st1, d) => runFrom lines st1 (li + d + 1)
  else .ok st
termination_by lines.length - li
decreasing_by omega

/-- `QuickCodes.apply_code` on an already-loaded buffer: run the whole
program from a zeroed register state and return the mutated buffer, or the
first execution error. -/
def apply_code (file : List Nat) (lines : List Line) :
    Except QuickCodesError (List Nat) :=
  match runFrom lines { pointer := 0, end_pointer := 0, ptr := 0, data := file } 0 with
  | .error e => .error e
  | .ok st => .ok st.data

/-- The persistence step of `apply_code`: `write_file` runs only after the
loop finishes without error.  Returns the stored file's final content and
whether `write_file` was invoked. -/
def runAndPersist (file : List Nat) (lines : List Line) : List Nat × Bool :=
  match apply_code file lines with
  | .ok d => (d, true)
  | .error _ => (file, false)

/-- The whole pipeline: construct `QuickCodes` (decode + validate), apply the
code to the stored file, persist only on success. -/
def run_quick_codes (file : List Nat) (codes : List Char) : List Nat × Bool :=
  match quick_codes_init codes with
  | .error _ => (file, false)
  | .ok lines => runAndPersist file lines

/-- The expected pairing of tokens into lines (specification-side mirror of
the `__init__` comprehension, defined for even-length token lists). -/
def pairsOf : List (List Char) → List Line
  | a :: b :: rest => (a ++ ' ' :: b) :: pairsOf rest
  | _ => []

/-- Fuel-indexed variant of `runFrom`, structurally recursive so that
concrete runs evaluate definitionally; `runFrom_eq_runFromF` proves it
coincides with `runFrom` whenever the fuel covers the remaining lines (the
program counter strictly increases each iteration, so `lines.length` fuel
always suffices). -/
def runFromF (lines : List Line) : Nat → St → Nat → Except QuickCodesError St
  | 0, st, _ => .ok st
  | fuel + 1, st, li =>
    if h : li < lines.length then
      match stepLine lines st li (lines.get ⟨li, h⟩) with
      | .error e => .error e
      | .ok (st1, d) => runFromF lines fuel st1 (li + d + 1)
    else .ok st

/-! ## Theorems -/

/-- One unfolding of the fetch-execute loop (program counter inside the
program). -/
lemma runFrom_step (lines : List Line) (st : St) (li : Nat) (h : li < lines.length) :
    runFrom lines st li =
      match stepLine lines st li (lines.get ⟨li, h⟩) with
      | .error e => .error e
      | .ok (st1, d) => runFrom lines st1 (li + d + 1) := by
  rw [runFrom]
  rw [dif_pos h]

/-- The fetch-execute loop stops once the program counter passes the end. -/
lemma runFrom_stop (lines : List Line) (st : St) (li : Nat) (h : ¬ li < lines.length) :
    runFrom lines st li = .ok st := by
  rw [runFrom]
  rw [dif_neg h]

/-- `runFrom` agrees with its fuel-indexed variant when the fuel covers the
remaining program. -/
lemma runFrom_eq_runFromF (lines : List Line) :
    ∀ (fuel : Nat) (st : St) (li : Nat), lines.length ≤ li + fuel →
      runFrom lines st li = runFromF lines fuel st li := by
  intro fuel
  induction fuel with
  | zero =>
    intro st li h
    rw [runFrom_stop lines st li (by omega), runFromF]
  | succ n ih =>
    intro st li h
    by_cases hlt : li < lines.length
    · rw [runFrom_step lines st li hlt, runFromF]
      rw [dif_pos hlt]
      cases hs : stepLine lines st li (lines.get ⟨li, hlt⟩) with
      | error e => rfl
      | ok p => exact ih p.1 (li + p.2 + 1) (by omega)
    · rw [runFrom_stop lines st li hlt, runFromF]
      rw [dif_neg hlt]

/-- `apply_code`, computed through the fuel-indexed loop. -/
lemma apply_code_eval (file : List Nat) (lines : List Line) :
    apply_code file lines =
      match runFromF lines lines.length { pointer := 0, end_pointer := 0, ptr := 0, data := file } 0 with
      | .error e => .error e
      | .ok st => .ok st.data := by
  rw [apply_code, runFrom_eq_runFromF lines lines.length _ 0 (by omega)]

/-- The full pipeline, computed through the fuel-indexed loop. -/
lemma run_quick_codes_eval (file : List Nat) (codes : List Char) :
    run_quick_codes file codes =
      match quick_codes_init codes with
      | .error _ => (file, false)
      | .ok lines =>
        match runFromF lines lines.length { pointer := 0, end_pointer := 0, ptr := 0, data := file } 0 with
        | .error _ => (file, false)
        | .ok st => (st.data, true) := by
  cases hq : quick_codes_init codes with
  | error e => simp [run_quick_codes, hq]
  | ok lines =>
    cases hr : runFromF lines lines.length { pointer := 0, end_pointer := 0, ptr := 0, data := file } 0 with
    | error e => simp [run_quick_codes, hq, runAndPersist, apply_code_eval, hr]
    | ok st => simp [run_quick_codes, hq, runAndPersist, apply_code_eval, hr]

/-- Characterization of `scanLoop`: with the counter at `k ≤ count`, the loop
returns the `(count - k)`-th (0-based) element of the matching offsets, or
`-1` when there are not enough matches. -/
lemma scanLoop_spec (p : Int → Bool) (count : Int) :
    ∀ (idxs : List Int) (k : Int), 1 ≤ k → k ≤ count →
      scanLoop p count idxs k =
        if (count - k).toNat < (idxs.filter p).length
        then (idxs.filter p).getD (count - k).toNat 0
        else -1 := by
  intro idxs
  induction idxs with
  | nil => intro k h1 h2; simp [scanLoop]
  | cons i rest ih =>
    intro k h1 h2
    unfold scanLoop
    by_cases hp : p i
    · rw [if_pos hp, List.filter_cons_of_pos hp]
      by_cases hk : k = count
      · rw [if_pos hk]
        have h0 : (count - k).toNat = 0 := by omega
        rw [h0]
        simp
      · rw [if_neg hk]
        have hklt : k < count := lt_of_le_of_ne h2 hk
        rw [ih (k + 1) (by omega) (by omega)]
        have h0 : (count - k).toNat = (count - (k + 1)).toNat + 1 := by omega
        rw [h0]
        simp [Nat.succ_lt_succ_iff]
    · rw [if_neg hp, List.filter_cons_of_neg hp]
      exact ih k h1 h2

/-- C4: occurrence contract of the pattern matcher.  For an occurrence index
`count ≥ 1`, `search_data` scans the window starts
`start, start + 1, ..., size - L` in ascending order and returns the start
offset of the `count`-th window equal to `search[:L]`, or `-1` when fewer
than `count` windows match; `reverse_search_data` does the same over
`start, start - 1, ..., 0` (keeping only offsets with `i + L ≤ size`).  The
matching offsets are expressed as a filtered index list, so the boundary
cases (`L = 0`, empty buffer) are covered by the same contract and neither
function can fail. -/
theorem c4_search_contract (data search : List Nat) (size start : Int) (L count : Nat)
    (hc : 1 ≤ count) :
    ((count : Int) ≤ (((intRange start (size - (L : Int) + 1)).filter
        (fun i => decide (getSlice data i (i + (L : Int)) = getSlice search 0 (L : Int)))).length : Int) →
      search_data data size start search (L : Int) (count : Int) =
        ((intRange start (size - (L : Int) + 1)).filter
          (fun i => decide (getSlice data i (i + (L : Int)) = getSlice search 0 (L : Int)))).getD (count - 1) 0) ∧
    ((((intRange start (size - (L : Int) + 1)).filter
        (fun i => decide (getSlice data i (i + (L : Int)) = getSlice search 0 (L : Int)))).length : Int) < (count : Int) →
      search_data data size start search (L : Int) (count : Int) = -1) ∧
    ((count : Int) ≤ (((descRange start).filter
        (fun i => decide (i + (L : Int) ≤ size) &&
          decide (getSlice data i (i + (L : Int)) = getSlice search 0 (L : Int)))).length : Int) →
      reverse_search_data data size start search (L : Int) (count : Int) =
        ((descRange start).filter
          (fun i => decide (i + (L : Int) ≤ size) &&
            decide (getSlice data i (i + (L : Int)) = getSlice search 0 (L : Int)))).getD (count - 1) 0) ∧
    ((((descRange start).filter
        (fun i => decide (i + (L : Int) ≤ size) &&
          decide (getSlice data i (i + (L : Int)) = getSlice search 0 (L : Int)))).length : Int) < (count : Int) →
      reverse_search_data data size start search (L : Int) (count : Int) = -1) := by
  have hf := scanLoop_spec
    (fun i => decide (getSlice data i (i + (L : Int)) = getSlice search 0 (L : Int)))
    (count : Int) (intRange start (size - (L : Int) + 1)) 1 le_rfl (by exact_mod_cast hc)
  have hr := scanLoop_spec
    (fun i => decide (i + (L : Int) ≤ size) &&
      decide (getSlice data i (i + (L : Int)) = getSlice search 0 (L : Int)))
    (count : Int) (descRange start) 1 le_rfl (by exact_mod_cast hc)
  have hn : ((count : Int) - 1).toNat = count - 1 := by omega
  rw [hn] at hf hr
  refine ⟨?_, ?_, ?_, ?_⟩
  · intro h
    rw [search_data, hf, if_pos (by omega)]
  · intro h
    rw [search_data, hf, if_neg (by omega)]
  · intro h
    rw [reverse_search_data, hr, if_pos (by omega)]
  · intro h
    rw [reverse_search_data, hr, if_neg (by omega)]

/-- Witness for C4 at a concrete input: in the buffer
`[0xAA, 0x00, 0xAA, 0x00, 0xAA]` the 1-byte pattern `0xAA` occurs three
times; the forward search finds the second occurrence at offset 2 and the
backward search (from offset 4) finds the second occurrence at offset 2 as
well, while occurrence 4 is not found. -/
theorem c4_search_contract_witness :
    search_data [170, 0, 170, 0, 170] 5 0 [170] 1 2 = 2 ∧
      reverse_search_data [170, 0, 170, 0, 170] 5 4 [170] 1 2 = 2 ∧
      search_data [170, 0, 170, 0, 170] 5 0 [170] 1 4 = -1 := by
  have h1 := (c4_search_contract [170, 0, 170, 0, 170] [170] 5 0 1 2 (by decide)).1
    (by decide)
  have h2 := (c4_search_contract [170, 0, 170, 0, 170] [170] 5 4 1 2 (by decide)).2.2.1
    (by decide)
  have h3 := (c4_search_contract [170, 0, 170, 0, 170] [170] 5 0 1 4 (by decide)).2.1
    (by decide)
  exact ⟨h1.trans (by decide), h2.trans (by decide), h3⟩

/-- An odd token count makes the pairing comprehension fail. -/
lemma pairUp_odd : ∀ parts : List (List Char), parts.length % 2 = 1 →
    pairUp parts = .error invalidCode
  | [], h => by simp at h
  | [a], _ => rfl
  | a :: b :: rest, h => by
    have h2 : rest.length % 2 = 1 := by simp only [List.length_cons] at h; omega
    simp [pairUp, pairUp_odd rest h2]

/-- An even token count pairs the tokens in order. -/
lemma pairUp_even : ∀ parts : List (List Char), parts.length % 2 = 0 →
    pairUp parts = .ok (pairsOf parts)
  | [], _ => rfl
  | [a], h => by simp [List.length_cons] at h
  | a :: b :: rest, h => by
    have h2 : rest.length % 2 = 0 := by simp only [List.length_cons] at h; omega
    simp [pairUp, pairUp_even rest h2, pairsOf]

/-- One line is produced per token pair. -/
lemma pairsOf_length : ∀ parts : List (List Char),
    (pairsOf parts).length = parts.length / 2
  | [] => rfl
  | [a] => by simp [pairsOf]
  | a :: b :: rest => by
    simp [pairsOf, pairsOf_length rest, List.length_cons]
    omega

/-- Validation succeeds on a list of lexically valid lines. -/
lemma checkLines_ok : ∀ ls : List Line, (∀ l ∈ ls, validate_code l = true) →
    checkLines ls = .ok ()
  | [], _ => rfl
  | l :: rest, h => by
    simp [checkLines, h l (by simp), checkLines_ok rest (fun x hx => h x (by simp [hx]))]

/-- Validation fails as soon as some line is lexically invalid. -/
lemma checkLines_err : ∀ ls : List Line, (∃ l ∈ ls, validate_code l = false) →
    ∃ m, checkLines ls = .error m
  | [], h => by simp at h
  | l :: rest, h => by
    by_cases hl : validate_code l
    · have : ∃ x ∈ rest, validate_code x = false := by
        rcases h with ⟨x, hx, hxv⟩
        rcases List.mem_cons.mp hx with rfl | hx'
        · rw [hl] at hxv; cases hxv
        · exact ⟨x, hx', hxv⟩
      rcases checkLines_err rest this with ⟨m, hm⟩
      exact ⟨m, by simp [checkLines, hl, hm]⟩
    · exact ⟨⟨"Invalid code: " ++ String.mk l ++ "!"⟩, by
        simp [checkLines, hl]⟩

/-- C7: decode contract of `QuickCodes.__init__`.  Tokens are the
whitespace-separated words of the code string; with an odd token count the
construction fails with `QuickCodesError("Invalid code!")`; with an even
token count it fails when some formed 17-character line does not match
`^[0-9A-Fa-f]{8} [0-9A-Fa-f]{8}$`, and otherwise succeeds producing exactly
one instruction line per consecutive token pair.  (The buffer plays no part:
`quick_codes_init` never touches it.) -/
theorem c7_decode_contract (codes : List Char) :
    ((splitWs codes).length % 2 = 1 → quick_codes_init codes = .error invalidCode) ∧
    ((splitWs codes).length % 2 = 0 →
      (∃ l ∈ pairsOf (splitWs codes), validate_code l = false) →
      ∃ m, quick_codes_init codes = .error m) ∧
    ((splitWs codes).length % 2 = 0 →
      (∀ l ∈ pairsOf (splitWs codes), validate_code l = true) →
      quick_codes_init codes = .ok (pairsOf (splitWs codes)) ∧
        (pairsOf (splitWs codes)).length = (splitWs codes).length / 2) := by
  refine ⟨?_, ?_, ?_⟩
  · intro hodd
    simp [quick_codes_init, pairUp_odd _ hodd]
  · intro heven hbad
    rcases checkLines_err _ hbad with ⟨m, hm⟩
    exact ⟨m, by simp [quick_codes_init, pairUp_even _ heven, hm]⟩
  · intro heven hgood
    refine ⟨?_, pairsOf_length _⟩
    simp [quick_codes_init, pairUp_even _ heven, checkLines_ok _ hgood]

/-- Witness for C7 at a concrete input: the two-token text
`"80010008 EA372703"` decodes to one line, and the three-token text
`"80010008 EA372703 00140000"` fails with the decode error. -/
theorem c7_decode_contract_witness :
    quick_codes_init ("80010008 EA372703".toList) =
      .ok [("80010008 EA372703".toList)] ∧
    quick_codes_init ("80010008 EA372703 00140000".toList) = .error invalidCode := by
  constructor
  · exact ((c7_decode_contract ("80010008 EA372703".toList)).2.2 (by decide)
      (by decide)).1.trans (by rfl)
  · exact (c7_decode_contract ("80010008 EA372703 00140000".toList)).1 (by decide)

/-- C2: persistence only on success.  `write_file` is invoked exactly when
every instruction of the program executed without error: a run in which
`apply_code` raises terminates without persisting, leaving the stored file
untouched (even though the in-memory buffer may have been mutated before the
failure), and a successful run persists the mutated buffer. -/
theorem c2_persist_only_on_success (file : List Nat) (lines : List Line) :
    (∀ e, apply_code file lines = .error e → runAndPersist file lines = (file, false)) ∧
    (∀ d, apply_code file lines = .ok d → runAndPersist file lines = (d, true)) := by
  constructor
  · intro e h
    simp [runAndPersist, h]
  · intro d h
    simp [runAndPersist, h]

/-- Witness for C2 at a concrete input: the one-character line `"0"` makes
the first instruction fail (its offset field is empty), and the stored file
is left untouched with `write_file` not invoked. -/
theorem c2_persist_only_on_success_witness :
    apply_code [7] [['0']] = .error invalidCode ∧
      runAndPersist [7] [['0']] = ([7], false) := by
  have h : apply_code [7] [['0']] = .error invalidCode := by
    rw [apply_code_eval]
    rfl
  exact ⟨h, (c2_persist_only_on_success [7] [['0']]).1 invalidCode h⟩

/-- C1 (failing input): an out-of-range write is *not* a fatal execution
error.  On a buffer of 16 zero bytes, the opcode-2 instruction
`"20000100 0000002A"` must write 4 bytes at offset `0x100 = 256`, which lies
entirely outside `[0, 16)`; the run nevertheless succeeds, silently
appending the 4 bytes at offset 16 (Python `bytearray` slice assignment
clamps the out-of-range bounds and resizes the buffer). -/
theorem c1_out_of_range_write_is_silent :
    run_quick_codes (List.replicate 16 0) ("20000100 0000002A".toList) =
      (List.replicate 16 0 ++ [42, 0, 0, 0], true) := by
  rw [run_quick_codes_eval]
  rfl

/-- C3 (failing input): an error-free run can resize the buffer.  On a
buffer of 16 zero bytes, the opcode-3 instruction `"3100000F 00000001"`
(16-bit increment at offset 15) reads the one available byte, writes back
two bytes at `[15:17]`, and the run succeeds with a buffer of 17 bytes. -/
theorem c3_successful_run_resizes_buffer :
    run_quick_codes (List.replicate 16 0) ("3100000F 00000001".toList) =
      (List.replicate 15 0 ++ [1, 0], true) ∧
      (List.replicate 15 0 ++ [1, 0]).length = 17 := by
  refine ⟨?_, by rfl⟩
  rw [run_quick_codes_eval]
  rfl

/-- C5 (failing input): the 8-bit increment does not wrap.  On the buffer
`[0xFF]`, the opcode-3 instruction `"30000000 00000001"` (8-bit add of 1)
computes `0xFF + 1 = 256` as a plain integer and the `bytearray` byte
assignment raises (`ValueError`, re-raised as
`QuickCodesError("Invalid code!")`) instead of storing `0x00`. -/
theorem c5_8bit_increment_overflow_raises :
    apply_code [255] [("30000000 00000001".toList)] = .error invalidCode := by
  rw [apply_code_eval]
  rfl

/-- C6: end-to-end scenario.  On a buffer of 16 zero bytes the single-line
program `"20000000 0000002A"` (opcode 2, normal addressing, offset 0,
value `0x2A`) terminates successfully and persists
`[0x2A, 0x00, 0x00, 0x00]` followed by twelve zero bytes — a little-endian
4-byte write of 42 at offset 0. -/
theorem c6_end_to_end_write42 :
    run_quick_codes (List.replicate 16 0) ("20000000 0000002A".toList) =
      ([42, 0, 0, 0] ++ List.replicate 12 0, true) := by
  rw [run_quick_codes_eval]
  rfl

/-- An unrecognized comparison-operator digit makes the test pass
(the `case _: off = 1` default). -/
lemma compareOp_default (op : Char) (s v : Nat)
    (h0 : op ≠ '0') (h1 : op ≠ '1') (h2 : op ≠ '2') (h3 : op ≠ '3') :
    compareOp op s v = true := by
  unfold compareOp
  split <;> simp_all

/-- The opcode-`D` skip loop advances by exactly the declared count when
enough lines remain. -/
lemma dSkip_len (lines : List Line) : ∀ (l li : Nat), li + l < lines.length →
    dSkip lines l li = .ok l := by
  intro l
  induction l with
  | zero => intro li _; rfl
  | succ n ih =>
    intro li h
    have hg : lines.get? (li + 1) = some (lines.get ⟨li + 1, by omega⟩) :=
      List.get?_eq_get (by omega)
    simp only [dSkip, hg, ih (li + 1) (by omega)]

/-- Characterization of the opcode-`D` handler in terms of its decoded
fields: when the comparison passes nothing happens, otherwise the program
counter advances over the declared number of lines. -/
lemma handlerD_spec (lines : List Line) (li : Nat) (st : St) (line : Line)
    (t op bit : Char) (offRaw l v src : Nat) (off : Int)
    (h1 : charAt line 1 = .ok t)
    (hop : charAt line 12 = .ok op)
    (hbit : charAt line 11 = .ok bit)
    (hoffp : parseHex (sub line 2 8) = .ok offRaw)
    (hoff : off = (if t = '8' then s32 ((offRaw : Int) + st.pointer) else (offRaw : Int)))
    (hl : parseHex (sub line 9 11) = .ok l)
    (hv : parseHex (sub line 13 17) = .ok v)
    (hsrc : (if bit = '1' then getAt st.data off
        else .ok (fromBytesLE (getSlice st.data off (off + 2)))) = .ok src) :
    handlerD lines li st line =
      if compareOp op src (if bit = '1' then v % 256 else v) then .ok (st, 0)
      else
        match dSkip lines l li with
        | .error e => .error e
        | .ok d => .ok (st, d) := by
  subst hoff
  simp only [handlerD, h1, hop, hbit, hoffp, hl, hv]
  rw [hsrc]

/-- C8: opcode `D` skips exactly the declared count.  For a `D` line whose
decoded fields are as hypothesized: when the comparison evaluates false,
the handler succeeds with `skip-count` extra counter increments (provided
the skipped lines exist), so execution resumes exactly `skip-count` lines
past the line immediately following the `D` instruction, with the state
untouched; when the comparison is true, no lines are skipped and the
immediately following line is executed normally. -/
theorem c8_conditional_skip (lines : List Line) (st : St) (li : Nat) (line : Line)
    (t op bit : Char) (offRaw l v src : Nat) (off : Int)
    (h0 : line.head? = some 'D')
    (h1 : charAt line 1 = .ok t)
    (hop : charAt line 12 = .ok op)
    (hbit : charAt line 11 = .ok bit)
    (hoffp : parseHex (sub line 2 8) = .ok offRaw)
    (hoff : off = (if t = '8' then s32 ((offRaw : Int) + st.pointer) else (offRaw : Int)))
    (hl : parseHex (sub line 9 11) = .ok l)
    (hv : parseHex (sub line 13 17) = .ok v)
    (hsrc : (if bit = '1' then getAt st.data off
        else .ok (fromBytesLE (getSlice st.data off (off + 2)))) = .ok src)
    (hlt : li < lines.length)
    (hline : lines.get ⟨li, hlt⟩ = line) :
    (compareOp op src (if bit = '1' then v % 256 else v) = true →
      stepLine lines st li line = .ok (st, 0) ∧
        runFrom lines st li = runFrom lines st (li + 1)) ∧
    (compareOp op src (if bit = '1' then v % 256 else v) = false →
      li + l < lines.length →
      stepLine lines st li line = .ok (st, l) ∧
        runFrom lines st li = runFrom lines st (li + l + 1)) := by
  have hDs : stepLine lines st li line = handlerD lines li st line := by
    unfold stepLine
    rw [h0]
    rfl
  constructor
  · intro hcmp
    have hs : stepLine lines st li line = .ok (st, 0) := by
      rw [hDs, handlerD_spec lines li st line t op bit offRaw l v src off
        h1 hop hbit hoffp hoff hl hv hsrc, if_pos hcmp]
    refine ⟨hs, ?_⟩
    rw [runFrom_step lines st li hlt, hline, hs]
  · intro hcmp hlen
    have hs : stepLine lines st li line = .ok (st, l) := by
      rw [hDs, handlerD_spec lines li st line t op bit offRaw l v src off
        h1 hop hbit hoffp hoff hl hv hsrc, if_neg (by simp [hcmp]),
        dSkip_len lines l li hlen]
    refine ⟨hs, ?_⟩
    rw [runFrom_step lines st li hlt, hline, hs]

/-- Witness for C8 at a concrete input: on the buffer `[5, 0]`, the line
`"D0000000 02000009"` tests `5 == 9` (false) and skips 2 lines, while
`"D0000000 02000005"` tests `5 == 5` (true) and skips none. -/
theorem c8_conditional_skip_witness :
    stepLine [("D0000000 02000009".toList), ['0'], ['0']]
        { pointer := 0, end_pointer := 0, ptr := 0, data := [5, 0] } 0
        ("D0000000 02000009".toList) =
      .ok ({ pointer := 0, end_pointer := 0, ptr := 0, data := [5, 0] }, 2) ∧
    stepLine [("D0000000 02000005".toList)]
        { pointer := 0, end_pointer := 0, ptr := 0, data := [5, 0] } 0
        ("D0000000 02000005".toList) =
      .ok ({ pointer := 0, end_pointer := 0, ptr := 0, data := [5, 0] }, 0) := by
  constructor
  · exact ((c8_conditional_skip [("D0000000 02000009".toList), ['0'], ['0']]
      { pointer := 0, end_pointer := 0, ptr := 0, data := [5, 0] } 0
      ("D0000000 02000009".toList) '0' '0' '0' 0 2 9 5 0
      (by rfl) (by rfl) (by rfl) (by rfl) (by rfl) (by rfl) (by rfl) (by rfl)
      (by rfl) (by decide) (by rfl)).2 (by rfl) (by decide)).1
  · exact ((c8_conditional_skip [("D0000000 02000005".toList)]
      { pointer := 0, end_pointer := 0, ptr := 0, data := [5, 0] } 0
      ("D0000000 02000005".toList) '0' '0' '0' 0 2 5 5 0
      (by rfl) (by rfl) (by rfl) (by rfl) (by rfl) (by rfl) (by rfl) (by rfl)
      (by rfl) (by decide) (by rfl)).1 (by rfl)).1

/-- C10: an opcode-`D` comparison-operator digit outside `{0, 1, 2, 3}` is
treated as a passed test: the handler raises no error, skips no lines, and
leaves the state untouched, so the immediately following line is executed
normally. -/
theorem c10_unknown_op_passes (lines : List Line) (st : St) (li : Nat) (line : Line)
    (t op bit : Char) (offRaw l v src : Nat) (off : Int)
    (h0 : line.head? = some 'D')
    (h1 : charAt line 1 = .ok t)
    (hop : charAt line 12 = .ok op)
    (hbit : charAt line 11 = .ok bit)
    (hoffp : parseHex (sub line 2 8) = .ok offRaw)
    (hoff : off = (if t = '8' then s32 ((offRaw : Int) + st.pointer) else (offRaw : Int)))
    (hl : parseHex (sub line 9 11) = .ok l)
    (hv : parseHex (sub line 13 17) = .ok v)
    (hsrc : (if bit = '1' then getAt st.data off
        else .ok (fromBytesLE (getSlice st.data off (off + 2)))) = .ok src)
    (hn0 : op ≠ '0') (hn1 : op ≠ '1') (hn2 : op ≠ '2') (hn3 : op ≠ '3') :
    stepLine lines st li line = .ok (st, 0) := by
  have hDs : stepLine lines st li line = handlerD lines li st line := by
    unfold stepLine
    rw [h0]
    rfl
  rw [hDs, handlerD_spec lines li st line t op bit offRaw l v src off
    h1 hop hbit hoffp hoff hl hv hsrc,
    if_pos (compareOp_default op src (if bit = '1' then v % 256 else v) hn0 hn1 hn2 hn3)]

/-- Witness for C10 at a concrete input: the line `"D0000000 00090000"`
carries the unknown operator digit `9`; on the buffer `[5, 0]` the handler
passes, skipping nothing. -/
theorem c10_unknown_op_passes_witness :
    stepLine [] { pointer := 0, end_pointer := 0, ptr := 0, data := [5, 0] } 0
        ("D0000000 00090000".toList) =
      .ok ({ pointer := 0, end_pointer := 0, ptr := 0, data := [5, 0] }, 0) := by
  exact c10_unknown_op_passes [] { pointer := 0, end_pointer := 0, ptr := 0, data := [5, 0] }
    0 ("D0000000 00090000".toList) '0' '9' '0' 0 0 0 5 0
    (by rfl) (by rfl) (by rfl) (by rfl) (by rfl) (by rfl) (by rfl) (by rfl) (by rfl)
    (by decide) (by decide) (by decide) (by decide)

/-- The continuation loop ignores its initial lookahead line except when it
performs no iteration, in which case it returns it unchanged. -/
lemma patLoop_congr (lines : List Line) (length : Nat) (idxs : List Nat)
    (find : List Nat) (val li : Nat) (l1 l2 : Line) :
    patLoop lines length idxs find val li l1 = patLoop lines length idxs find val li l2 ∨
      (patLoop lines length idxs find val li l1 = .ok (find, val, 0, l1) ∧
        patLoop lines length idxs find val li l2 = .ok (find, val, 0, l2)) := by
  cases idxs with
  | nil => exact Or.inr ⟨rfl, rfl⟩
  | cons i rest => exact Or.inl rfl

/-- The inner dependent-skip loop depends on its initial lookahead line only
through `depSkipCond`: either both runs coincide, or both stop immediately
returning their respective lookahead lines. -/
lemma skipInner_congr (lines : List Line) (li : Nat) (l1 l2 : Line)
    (h : depSkipCond l1 = depSkipCond l2) :
    skipInner lines l1 li = skipInner lines l2 li ∨
      (skipInner lines l1 li = .ok (l1, 0) ∧ skipInner lines l2 li = .ok (l2, 0)) := by
  rw [skipInner, skipInner, h]
  cases hd : depSkipCond l2 with
  | error e => exact Or.inl rfl
  | ok b =>
    cases b with
    | false => exact Or.inr ⟨rfl, rfl⟩
    | true =>
      by_cases hlt : li < lines.length
      · rw [dif_pos hlt, dif_pos hlt]
        exact Or.inl rfl
      · rw [dif_neg hlt, dif_neg hlt]
        exact Or.inr ⟨rfl, rfl⟩

/-- Worker for `skipOuter_congr`, by induction on the remaining fuel. -/
lemma skipOuter_congr_aux (lines : List Line) :
    ∀ (n li : Nat), lines.length - li ≤ n → ∀ l1 l2 : Line,
      depSkipCond l1 = depSkipCond l2 →
      skipOuter lines l1 li = skipOuter lines l2 li := by
  intro n
  induction n with
  | zero =>
    intro li hle l1 l2 h
    rw [skipOuter, skipOuter, dif_neg (by omega), dif_neg (by omega)]
  | succ n ih =>
    intro li hle l1 l2 h
    by_cases hlt : li < lines.length
    · rw [skipOuter, skipOuter, dif_pos hlt, dif_pos hlt]
      rcases skipInner_congr lines (li + 1) l1 l2 h with heq | ⟨hL, hR⟩
      · rw [heq]
      · simp only [hL, hR]
        rw [ih (li + 1 + 0) (by omega) l1 l2 h]
    · rw [skipOuter, skipOuter, dif_neg hlt, dif_neg hlt]

/-- The outer dependent-skip loop depends on its lookahead line only through
`depSkipCond`. -/
lemma skipOuter_congr (lines : List Line) (li : Nat) (l1 l2 : Line)
    (h : depSkipCond l1 = depSkipCond l2) :
    skipOuter lines l1 li = skipOuter lines l2 li :=
  skipOuter_congr_aux lines lines.length li (by omega) l1 l2 h

/-- The failed-search block depends on the lookahead line only through
`depSkipCond`. -/
lemma searchSkip_congr (lines : List Line) (li : Nat) (st : St) (res : Int)
    (d1 : Nat) (l1 l2 : Line) (h : depSkipCond l1 = depSkipCond l2) :
    searchSkip lines li st res l1 d1 = searchSkip lines li st res l2 d1 := by
  unfold searchSkip
  by_cases hr : res < 0
  · rw [if_pos hr, if_pos hr, skipOuter_congr lines (li + d1) l1 l2 h]
  · rw [if_neg hr, if_neg hr]

/-- `doSearch8` with a decoded count of 0 behaves as with count 1 (and only
inspects the lookahead line through `depSkipCond`). -/
lemma doSearch8_zero (lines : List Line) (li : Nat) (st : St) (t : Char)
    (length v : Nat) (l1 l2 : Line) (h : depSkipCond l1 = depSkipCond l2) :
    doSearch8 lines li st t 0 length v l1 = doSearch8 lines li st t 1 length v l2 := by
  have i0 : (if (0 : Nat) = 0 then (1 : Nat) else 0) = 1 := rfl
  have i1 : (if (1 : Nat) = 0 then (1 : Nat) else 1) = 1 := rfl
  simp only [doSearch8, i0, i1, if_true, ite_self]
  rcases patLoop_congr lines length (natRangeStep 4 length 8)
      (setSlice (List.replicate (roundUp4 length) 0) 0 4 (toBytesBE 4 v)) v li l1 l2 with
    heq | ⟨hL, hR⟩
  · rw [heq]
  · simp only [hL, hR]
    exact searchSkip_congr lines li st _ 0 l1 l2 h

/-- `doSearchB` with a decoded count of 0 behaves as with count 1. -/
lemma doSearchB_zero (lines : List Line) (li : Nat) (st : St) (t : Char)
    (length v : Nat) (l1 l2 : Line) (h : depSkipCond l1 = depSkipCond l2) :
    doSearchB lines li st t 0 length v l1 = doSearchB lines li st t 1 length v l2 := by
  have i0 : (if (0 : Nat) = 0 then (1 : Nat) else 0) = 1 := rfl
  have i1 : (if (1 : Nat) = 0 then (1 : Nat) else 1) = 1 := rfl
  simp only [doSearchB, i0, i1, if_true, ite_self]
  rcases patLoop_congr lines length (natRangeStep 4 length 8)
      (setSlice (List.replicate (roundUp4 length) 0) 0 4 (toBytesBE 4 v)) v li l1 l2 with
    heq | ⟨hL, hR⟩
  · rw [heq]
  · simp only [hL, hR]
    exact searchSkip_congr lines li _ _ 0 l1 l2 h

/-- `doSearchC` with a decoded count of 0 behaves as with count 1. -/
lemma doSearchC_zero (lines : List Line) (li : Nat) (st : St) (t : Char)
    (length a : Nat) (l1 l2 : Line) (h : depSkipCond l1 = depSkipCond l2) :
    doSearchC lines li st t 0 length a l1 = doSearchC lines li st t 1 length a l2 := by
  have i0 : (if (0 : Nat) = 0 then (1 : Nat) else 0) = 1 := rfl
  have i1 : (if (1 : Nat) = 0 then (1 : Nat) else 1) = 1 := rfl
  simp only [doSearchC, i0, i1, if_true, ite_self]
  exact searchSkip_congr lines li st _ 0 l1 l2 h

/-- C9: for the search opcodes `8`, `B` and `C`, a decoded occurrence-count
field of 0 behaves exactly as if the count were 1 (the first match in scan
order is taken): executing the line is the same as executing the line with
its count field replaced by `01`. -/
theorem c9_zero_count_as_one (lines : List Line) (st : St) (li : Nat)
    (c0 c1 x1 x2 : Char) (r : List Char)
    (hc : c0 = '8' ∨ c0 = 'B' ∨ c0 = 'C')
    (hcnt : parseHex [x1, x2] = .ok 0) :
    stepLine lines st li (c0 :: c1 :: x1 :: x2 :: r) =
      stepLine lines st li (c0 :: c1 :: '0' :: '1' :: r) := by
  have h01 : parseHex ['0', '1'] = .ok 1 := rfl
  rcases hc with rfl | rfl | rfl
  · have ec1 : charAt ('8' :: c1 :: x1 :: x2 :: r) 1 = .ok c1 := rfl
    have ec1m : charAt ('8' :: c1 :: '0' :: '1' :: r) 1 = .ok c1 := rfl
    have e24 : sub ('8' :: c1 :: x1 :: x2 :: r) 2 4 = [x1, x2] := rfl
    have e24m : sub ('8' :: c1 :: '0' :: '1' :: r) 2 4 = ['0', '1'] := rfl
    have e48 : sub ('8' :: c1 :: x1 :: x2 :: r) 4 8 = List.take 4 r := rfl
    have e48m : sub ('8' :: c1 :: '0' :: '1' :: r) 4 8 = List.take 4 r := rfl
    have e917 : sub ('8' :: c1 :: x1 :: x2 :: r) 9 17 = List.drop 5 (List.take 13 r) := rfl
    have e917m : sub ('8' :: c1 :: '0' :: '1' :: r) 9 17 = List.drop 5 (List.take 13 r) := rfl
    show handler8 lines li st ('8' :: c1 :: x1 :: x2 :: r) =
      handler8 lines li st ('8' :: c1 :: '0' :: '1' :: r)
    simp only [handler8, ec1, ec1m, e24, e24m, e48, e48m, e917, e917m, hcnt, h01]
    cases hlen : parseHex (List.take 4 r) with
    | error e => rfl
    | ok length =>
      cases hv : parseHex (List.drop 5 (List.take 13 r)) with
      | error e => rfl
      | ok v => exact doSearch8_zero lines li st c1 length v _ _ rfl
  · have ec1 : charAt ('B' :: c1 :: x1 :: x2 :: r) 1 = .ok c1 := rfl
    have ec1m : charAt ('B' :: c1 :: '0' :: '1' :: r) 1 = .ok c1 := rfl
    have e24 : sub ('B' :: c1 :: x1 :: x2 :: r) 2 4 = [x1, x2] := rfl
    have e24m : sub ('B' :: c1 :: '0' :: '1' :: r) 2 4 = ['0', '1'] := rfl
    have e48 : sub ('B' :: c1 :: x1 :: x2 :: r) 4 8 = List.take 4 r := rfl
    have e48m : sub ('B' :: c1 :: '0' :: '1' :: r) 4 8 = List.take 4 r := rfl
    have e917 : sub ('B' :: c1 :: x1 :: x2 :: r) 9 17 = List.drop 5 (List.take 13 r) := rfl
    have e917m : sub ('B' :: c1 :: '0' :: '1' :: r) 9 17 = List.drop 5 (List.take 13 r) := rfl
    show handlerB lines li st ('B' :: c1 :: x1 :: x2 :: r) =
      handlerB lines li st ('B' :: c1 :: '0' :: '1' :: r)
    simp only [handlerB, ec1, ec1m, e24, e24m, e48, e48m, e917, e917m, hcnt, h01]
    cases hlen : parseHex (List.take 4 r) with
    | error e => rfl
    | ok length =>
      cases hv : parseHex (List.drop 5 (List.take 13 r)) with
      | error e => rfl
      | ok v => exact doSearchB_zero lines li st c1 length v _ _ rfl
  · have ec1 : charAt ('C' :: c1 :: x1 :: x2 :: r) 1 = .ok c1 := rfl
    have ec1m : charAt ('C' :: c1 :: '0' :: '1' :: r) 1 = .ok c1 := rfl
    have e24 : sub ('C' :: c1 :: x1 :: x2 :: r) 2 4 = [x1, x2] := rfl
    have e24m : sub ('C' :: c1 :: '0' :: '1' :: r) 2 4 = ['0', '1'] := rfl
    have e48 : sub ('C' :: c1 :: x1 :: x2 :: r) 4 8 = List.take 4 r := rfl
    have e48m : sub ('C' :: c1 :: '0' :: '1' :: r) 4 8 = List.take 4 r := rfl
    have e917 : sub ('C' :: c1 :: x1 :: x2 :: r) 9 17 = List.drop 5 (List.take 13 r) := rfl
    have e917m : sub ('C' :: c1 :: '0' :: '1' :: r) 9 17 = List.drop 5 (List.take 13 r) := rfl
    show handlerC lines li st ('C' :: c1 :: x1 :: x2 :: r) =
      handlerC lines li st ('C' :: c1 :: '0' :: '1' :: r)
    simp only [handlerC, ec1, ec1m, e24, e24m, e48, e48m, e917, e917m, hcnt, h01]
    cases hlen : parseHex (List.take 4 r) with
    | error e => rfl
    | ok length =>
      cases hv : parseHex (List.drop 5 (List.take 13 r)) with
      | error e => rfl
      | ok a => exact doSearchC_zero lines li st c1 length a _ _ rfl

/-- Witness for C9 at a concrete input: the forward-search line
`"80000001 DE000000"` (count field `00`) behaves exactly as
`"80010001 DE000000"` (count field `01`). -/
theorem c9_zero_count_as_one_witness :
    stepLine [] { pointer := 0, end_pointer := 0, ptr := 0, data := [222, 173] } 0
        ("80000001 DE000000".toList) =
      stepLine [] { pointer := 0, end_pointer := 0, ptr := 0, data := [222, 173] } 0
        ("80010001 DE000000".toList) := by
  exact c9_zero_count_as_one [] { pointer := 0, end_pointer := 0, ptr := 0, data := [222, 173] }
    0 '8' '0' '0' '0' ("0001 DE000000".toList) (by decide) (by rfl)

end QuickCodesVerif
